import Mathlib

/-!
Verification of the application lifecycle controller in
`src/packages/umbreld/source/modules/apps/app.ts`.

The TypeScript class `App` is shallowly embedded as follows.

* Pure data (the compose descriptor, the controller fields, the lifecycle
  state union) becomes plain Lean structures and inductives.
* The asynchronous methods become functions from an environment `Env`
  (recording the outcome each external collaborator would produce: script
  runner exit, directory removal, image removal, engine stats) and a system
  state `Sys` (the controller fields, the compose file on disk, the persisted
  list of installed app ids) to a triple
  `result × final system state × trace of external events`.
  A rejected promise is `Except.error`; sequencing is explicit, so the trace
  records the exact order in which external actions were invoked.
* JavaScript numbers produced by this module are either NaN or finite decimal
  values; they are modelled by `JsNum` (NaN plus an exact rational), which is
  faithful here because every value involved is a small decimal and the only
  division is by the constant 100.
-/

namespace Umbreld

/-- A JavaScript runtime error, carried by a rejected promise and modelled by
its message string. -/
abbrev Err := String

/-- Decidable equality for `Except`, available whenever both components have
it; used to evaluate closed facts about results by `decide`. -/
instance {ε α : Type} [DecidableEq ε] [DecidableEq α] : DecidableEq (Except ε α) := by
  intro a b
  cases a <;> cases b
  case error.error x y =>
    exact if h : x = y then .isTrue (by rw [h]) else .isFalse (by intro hc; cases hc; exact h rfl)
  case ok.ok x y =>
    exact if h : x = y then .isTrue (by rw [h]) else .isFalse (by intro hc; cases hc; exact h rfl)
  case error.ok x y => exact .isFalse (by intro hc; cases hc)
  case ok.error x y => exact .isFalse (by intro hc; cases hc)

/-- The `AppState` union type of app.ts (line 22): the possible values of the
controller's `state` field. -/
inductive AppState
  | unknown
  | installing
  | starting
  | running
  | stopping
  | stopped
  | restarting
  | uninstalling
  | updating
  | ready
deriving DecidableEq, Repr

/-- One entry of the compose descriptor's `services` mapping. `container_name`
and `image` are the two fields app.ts reads or writes; `rest` stands for every
other field of the service definition, which app.ts never touches. Absent
fields are `none`. -/
structure Service where
  container_name : Option String
  image : Option String
  rest : List (String × String)
deriving DecidableEq, Repr

/-- The compose descriptor: an ordered mapping from service name to service
definition, embedded as an association list (iteration order of
`Object.keys`). -/
structure Compose where
  services : List (String × Service)
deriving DecidableEq, Repr

/-- JavaScript truthiness of an optional string field: an absent field and the
empty string are both falsy (`!compose.services[name].container_name`,
app.ts line 80). -/
def falsyStr : Option String → Bool
  | none => true
  | some s => s == ""

/-- The body of the loop of `patchComposeServices` (app.ts lines 79 to 83) for
one service: when `container_name` is falsy, set it to
`<appId>_<serviceName>_1`; otherwise leave the service untouched. -/
def patchService (appId serviceName : String) (s : Service) : Service :=
  if falsyStr s.container_name then
    { s with container_name := some (appId ++ "_" ++ serviceName ++ "_1") }
  else s

/-- The pure transform `patchComposeServices` applies to the in-memory
descriptor (app.ts lines 79 to 83): the loop over `Object.keys` runs
`patchService` on every entry. -/
def patchCompose (appId : String) (c : Compose) : Compose :=
  ⟨c.services.map (fun p => (p.1, patchService appId p.1 p.2))⟩

/-- `Object.values(compose.services).map((service) => service.image)
.filter(Boolean)` from `update` (app.ts lines 111 to 113): image references of
all services, where `filter(Boolean)` drops both absent images and the falsy
empty string. -/
def oldImagesOf (c : Compose) : List String :=
  (c.services.map (fun p => p.2.image)).filterMap fun i =>
    match i with
    | none => none
    | some s => if s == "" then none else some s

/-- The controller fields of the `App` class. -/
structure App where
  id : String
  dataDirectory : String
  state : AppState
  stateProgress : Nat
deriving DecidableEq, Repr

/-- One character of the class `[a-zA-Z0-9-_]` of the app id regex
(app.ts line 49). -/
def isAppIdChar (c : Char) : Bool :=
  c.isAlpha || c.isDigit || c == '-' || c == '_'

/-- `/^[a-zA-Z0-9-_]+$/.test(appId)`: at least one character and every
character drawn from the class. -/
def testAppId (s : String) : Bool :=
  !s.data.isEmpty && s.data.all isAppIdChar

/-- The `App` constructor (app.ts lines 47 to 56): validate the app id against
the regex and throw before anything else happens; on success populate the
fields (`state` starts at `unknown`, `stateProgress` at 0, `dataDirectory` is
derived from the umbreld data directory). The logger wiring is out of scope. -/
def App.construct (umbreldDataDirectory appId : String) : Except Err App :=
  if testAppId appId then
    .ok
      { id := appId
        dataDirectory := umbreldDataDirectory ++ "/app-data/" ++ appId
        state := .unknown
        stateProgress := 0 }
  else
    .error ("Invalid app ID: " ++ appId)

/-- One parsed line of `docker stats --format json` output as consumed by
`getMemoryUsage` and `getCpuUsage`: the engine-reported percentage strings. -/
structure UsageRecord where
  MemPerc : String
  CPUPerc : String
deriving DecidableEq, Repr

/-- Outcomes the external collaborators of one method call would produce:
the script runner per action name, `fse.remove`, `docker rmi`, the
`docker stats` snapshot (already decoded into usage records; the JSON wire
format is the engine's interface and out of scope per the spec), and the
host's total physical memory in bytes. -/
structure Env where
  script : String → Except Err Unit
  removeDirResult : Except Err Unit
  rmiResult : Except Err Unit
  stats : Except Err (List UsageRecord)
  totalMemory : ℚ

/-- The mutable world around one controller: the controller fields, the
compose file on disk (or the error reading it would produce), and the
persisted global list of installed app ids behind the store. -/
structure Sys where
  app : App
  file : Except Err Compose
  storedApps : List String
deriving DecidableEq, Repr

/-- External events a lifecycle method can emit, in invocation order. -/
inductive Event
  | readComposeFile
  | writeComposeFile (c : Compose)
  | script (action appId : String)
  | removeDirectory (path : String)
  | dockerRmi (images : List String)
  | lockAcquire
  | storeGet (apps : List String)
  | storeSet (apps : List String)
  | lockRelease
deriving DecidableEq, Repr

/-- `patchComposeServices` (app.ts lines 70 to 86): read the compose file,
patch every service's container name, write the file back. A failing read
rejects; on success the file now holds the patched descriptor. -/
def App.patchComposeServices (s : Sys) : Except Err Unit × Sys × List Event :=
  match s.file with
  | .error e => (.error e, s, [.readComposeFile])
  | .ok c =>
    let c2 := patchCompose s.app.id c
    (.ok (), { s with file := .ok c2 }, [.readComposeFile, .writeComposeFile c2])

/-- `install` (app.ts lines 88 to 99): set state `installing`, patch the
compose services, run the `install` script action, set state `ready`, return
true. Any rejection propagates and aborts the remaining steps. -/
def App.install (env : Env) (s : Sys) : Except Err Bool × Sys × List Event :=
  let s1 : Sys := { s with app := { s.app with state := .installing } }
  match App.patchComposeServices s1 with
  | (.error e, s2, t) => (.error e, s2, t)
  | (.ok _, s2, t) =>
    match env.script "install" with
    | .error e => (.error e, s2, t ++ [.script "install" s2.app.id])
    | .ok _ =>
      (.ok true, { s2 with app := { s2.app with state := .ready } },
        t ++ [.script "install" s2.app.id])

/-- `update` (app.ts lines 101 to 129): set state `updating`, read the compose
file and capture the old image references, run `pre-patch-update`, patch the
compose services, run `post-patch-update`, then try to remove the old images
with the rejection swallowed by `try ... catch {}` (both outcomes continue
identically), set state `ready` and return true. -/
def App.update (env : Env) (s : Sys) : Except Err Bool × Sys × List Event :=
  let s1 : Sys := { s with app := { s.app with state := .updating } }
  match s1.file with
  | .error e => (.error e, s1, [.readComposeFile])
  | .ok c =>
    let oldImages := oldImagesOf c
    match env.script "pre-patch-update" with
    | .error e => (.error e, s1, [.readComposeFile, .script "pre-patch-update" s1.app.id])
    | .ok _ =>
      match App.patchComposeServices s1 with
      | (.error e, s2, t) =>
        (.error e, s2, [.readComposeFile, .script "pre-patch-update" s1.app.id] ++ t)
      | (.ok _, s2, t) =>
        match env.script "post-patch-update" with
        | .error e =>
          (.error e, s2,
            [.readComposeFile, .script "pre-patch-update" s1.app.id] ++ t
              ++ [.script "post-patch-update" s2.app.id])
        | .ok _ =>
          let tr := [Event.readComposeFile, Event.script "pre-patch-update" s1.app.id] ++ t
              ++ [Event.script "post-patch-update" s2.app.id, Event.dockerRmi oldImages]
          let s3 : Sys := { s2 with app := { s2.app with state := .ready } }
          match env.rmiResult with
          | .error _ => (.ok true, s3, tr)
          | .ok _ => (.ok true, s3, tr)

/-- `start` (app.ts lines 131 to 138): state `starting`, script action
`start`, state `ready`, return true. -/
def App.start (env : Env) (s : Sys) : Except Err Bool × Sys × List Event :=
  let s1 : Sys := { s with app := { s.app with state := .starting } }
  match env.script "start" with
  | .error e => (.error e, s1, [.script "start" s1.app.id])
  | .ok _ =>
    (.ok true, { s1 with app := { s1.app with state := .ready } },
      [.script "start" s1.app.id])

/-- `stop` (app.ts lines 140 to 146): state `stopping`, script action `stop`,
state `stopped`, return true. -/
def App.stop (env : Env) (s : Sys) : Except Err Bool × Sys × List Event :=
  let s1 : Sys := { s with app := { s.app with state := .stopping } }
  match env.script "stop" with
  | .error e => (.error e, s1, [.script "stop" s1.app.id])
  | .ok _ =>
    (.ok true, { s1 with app := { s1.app with state := .stopped } },
      [.script "stop" s1.app.id])

/-- `restart` (app.ts lines 148 to 155): state `restarting`, script action
`stop`, script action `start`, state `ready`, return true. The two actions run
strictly in sequence; a rejection of either propagates at that point. -/
def App.restart (env : Env) (s : Sys) : Except Err Bool × Sys × List Event :=
  let s1 : Sys := { s with app := { s.app with state := .restarting } }
  match env.script "stop" with
  | .error e => (.error e, s1, [.script "stop" s1.app.id])
  | .ok _ =>
    match env.script "start" with
    | .error e => (.error e, s1, [.script "stop" s1.app.id, .script "start" s1.app.id])
    | .ok _ =>
      (.ok true, { s1 with app := { s1.app with state := .ready } },
        [.script "stop" s1.app.id, .script "start" s1.app.id])

/-- `uninstall` (app.ts lines 157 to 169): state `uninstalling`, script action
`stop`, recursive removal of the data directory, then under the store's
exclusive write lock read the `apps` list, filter this app's id out of it and
write it back; return true. The lock callback is the bracketed
get/filter/set sequence in the trace. -/
def App.uninstall (env : Env) (s : Sys) : Except Err Bool × Sys × List Event :=
  let s1 : Sys := { s with app := { s.app with state := .uninstalling } }
  match env.script "stop" with
  | .error e => (.error e, s1, [.script "stop" s1.app.id])
  | .ok _ =>
    match env.removeDirResult with
    | .error e =>
      (.error e, s1, [.script "stop" s1.app.id, .removeDirectory s1.app.dataDirectory])
    | .ok _ =>
      let apps := s1.storedApps
      let newApps := apps.filter (fun appId => appId != s1.app.id)
      (.ok true, { s1 with storedApps := newApps },
        [.script "stop" s1.app.id, .removeDirectory s1.app.dataDirectory,
          .lockAcquire, .storeGet apps, .storeSet newApps, .lockRelease])

/-- A JavaScript number as produced by this module: NaN or a finite value,
the finite values modelled exactly as rationals. app.ts only ever adds parsed
decimals, multiplies by the memory total and divides by the constant 100, so
no infinities arise and rational arithmetic is exact. -/
inductive JsNum
  | nan
  | num (q : ℚ)
deriving DecidableEq, Repr

/-- JavaScript addition restricted to `JsNum`: NaN absorbs. -/
def JsNum.add : JsNum → JsNum → JsNum
  | .num a, .num b => .num (a + b)
  | _, _ => .nan

/-- JavaScript multiplication restricted to `JsNum`: NaN absorbs. -/
def JsNum.mul : JsNum → JsNum → JsNum
  | .num a, .num b => .num (a * b)
  | _, _ => .nan

/-- JavaScript division restricted to `JsNum`: NaN absorbs; division by zero
is collapsed to NaN, which is irrelevant here because app.ts only divides by
the constant 100. -/
def JsNum.div : JsNum → JsNum → JsNum
  | .num a, .num b => if b = 0 then .nan else .num (a / b)
  | _, _ => .nan

/-- Longest leading run of decimal digits of a character list: the value read,
the number of digits consumed, and the remaining input. -/
def readDigits : Nat → Nat → List Char → Nat × Nat × List Char
  | acc, n, [] => (acc, n, [])
  | acc, n, c :: cs =>
    if c.isDigit then readDigits (acc * 10 + (c.toNat - 48)) (n + 1) cs
    else (acc, n, c :: cs)

/-- Modelled from ECMAScript `Number.parseFloat` restricted to decimal
notation: skip leading whitespace, read an optional sign, an integer part, an
optional fractional part and an optional exponent, ignoring any trailing
garbage; NaN when no digit was read. (The `Infinity` literal is not modelled:
the strings this module parses are engine percentage strings.) -/
def jsParseFloat (s : String) : JsNum :=
  let cs0 := s.data.dropWhile fun c => c == ' ' || c == '\t' || c == '\n' || c == '\r'
  let signAndRest : ℚ × List Char :=
    match cs0 with
    | '-' :: r => (-1, r)
    | '+' :: r => (1, r)
    | _ => (1, cs0)
  let (ip, ni, cs1) := readDigits 0 0 signAndRest.2
  let fracState : Nat × Nat × List Char :=
    match cs1 with
    | '.' :: r => readDigits 0 0 r
    | _ => (0, 0, cs1)
  let (fp, nf, cs2) := fracState
  if ni = 0 ∧ nf = 0 then .nan
  else
    let mant : ℚ := (ip : ℚ) + (fp : ℚ) / ((10 : ℚ) ^ nf)
    let expo : Int :=
      match cs2 with
      | [] => 0
      | c :: r =>
        if c == 'e' || c == 'E' then
          match r with
          | '-' :: r2 =>
            let (ev, en, _) := readDigits 0 0 r2
            if en = 0 then 0 else -(ev : Int)
          | '+' :: r2 =>
            let (ev, en, _) := readDigits 0 0 r2
            if en = 0 then 0 else (ev : Int)
          | _ =>
            let (ev, en, _) := readDigits 0 0 r
            if en = 0 then 0 else (ev : Int)
        else 0
    .num (signAndRest.1 * mant * (10 : ℚ) ^ expo)

/-- `getResourceUsage` (app.ts lines 171 to 177): read the compose file to
resolve the container names, then take a one-shot `docker stats` snapshot of
those containers. A failing compose read rejects; the decoded records come
from the engine. -/
def App.getResourceUsage (env : Env) (s : Sys) : Except Err (List UsageRecord) :=
  match s.file with
  | .error e => .error e
  | .ok _ => env.stats

/-- `getMemoryUsage` (app.ts lines 179 to 188): sum
`Number.parseFloat(container.MemPerc)` over the usage records, then return
`total * (totalMemoryPercentage / 100)` with `total` the host's physical
memory in bytes. -/
def App.getMemoryUsage (env : Env) (s : Sys) : Except Err JsNum :=
  match App.getResourceUsage env s with
  | .error e => .error e
  | .ok containers =>
    let totalMemoryPercentage : JsNum :=
      containers.foldl (fun t c => t.add (jsParseFloat c.MemPerc)) (.num 0)
    .ok ((JsNum.num env.totalMemory).mul (totalMemoryPercentage.div (.num 100)))

/-- `getCpuUsage` (app.ts lines 190 to 198): sum
`Number.parseFloat(container.CPUPerc)` over the usage records and return the
sum. -/
def App.getCpuUsage (env : Env) (s : Sys) : Except Err JsNum :=
  match App.getResourceUsage env s with
  | .error e => .error e
  | .ok containers =>
    .ok (containers.foldl (fun t c => t.add (jsParseFloat c.CPUPerc)) (JsNum.num 0))

/-! ### Concrete fixtures used by witnesses -/

/-- A concrete compose descriptor: one service without a container name, one
with an explicit one. -/
def composeW : Compose :=
  ⟨[("web", ⟨none, some "img-web", [("ports", "80:80")]⟩),
    ("db", ⟨some "dbname", some "img-db", []⟩)]⟩

/-- A concrete controller as the constructor would produce it. -/
def appW : App :=
  { id := "myapp"
    dataDirectory := "/data/app-data/myapp"
    state := .unknown
    stateProgress := 0 }

/-- A concrete system state around `appW`. -/
def sysW : Sys := { app := appW, file := .ok composeW, storedApps := ["a", "myapp", "b"] }

/-- An environment in which every external collaborator succeeds. -/
def envOk : Env :=
  { script := fun _ => .ok ()
    removeDirResult := .ok ()
    rmiResult := .ok ()
    stats := .ok []
    totalMemory := 0 }

/-- Like `envOk` but the `stop` script action fails. -/
def envStopFails : Env :=
  { envOk with script := fun a => if a = "stop" then .error "stop failed" else .ok () }

/-- Like `envOk` but the `install` script action fails. -/
def envInstallFails : Env :=
  { envOk with script := fun a => if a = "install" then .error "install failed" else .ok () }

/-- Like `envOk` but `docker rmi` fails. -/
def envRmiFails : Env := { envOk with rmiResult := .error "rmi failed" }

/-- Usage stats in which the first record's percentage strings are malformed. -/
def envBadStats : Env :=
  { envOk with stats := .ok [⟨"--", "--"⟩, ⟨"5.0%", "5.0%"⟩], totalMemory := 16000000000 }

/-- Usage stats reporting memory percentages 10.0 and 5.5 on a host with
16000000000 bytes of memory (the worked example of the spec). -/
def envMem : Env :=
  { envOk with stats := .ok [⟨"10.00%", "3.0%"⟩, ⟨"5.50%", "4.0%"⟩], totalMemory := 16000000000 }

/-! ### Container name patcher: helper lemmas -/

/-- A string ending in the literal `_1` is never empty. -/
lemma append_underscore_one_ne_empty (x : String) : x ++ "_1" ≠ "" := by
  intro h
  have h2 := congrArg String.length h
  rw [String.length_append] at h2
  simp [show ("_1" : String).length = 2 from rfl, show ("" : String).length = 0 from rfl] at h2

/-- The name the patcher assigns is truthy, so a second pass skips it. -/
lemma falsyStr_patched (appId serviceName : String) :
    falsyStr (some (appId ++ "_" ++ serviceName ++ "_1")) = false := by
  simp only [falsyStr, beq_eq_false_iff_ne, ne_eq]
  exact append_underscore_one_ne_empty _

/-- Patching one service twice is the same as patching it once. -/
lemma patchService_idem (appId serviceName : String) (s : Service) :
    patchService appId serviceName (patchService appId serviceName s)
      = patchService appId serviceName s := by
  cases hf : falsyStr s.container_name with
  | true => simp [patchService, hf, falsyStr_patched]
  | false => simp [patchService, hf]

/-- C4: the container name patcher is idempotent: applying the patching
transform twice to any compose descriptor yields exactly the same descriptor
as applying it once. -/
theorem patchCompose_idempotent (appId : String) (c : Compose) :
    patchCompose appId (patchCompose appId c) = patchCompose appId c := by
  unfold patchCompose
  simp only [Compose.mk.injEq, List.map_map]
  apply List.map_congr_left
  intro p _
  simp [Function.comp, patchService_idem]

/-- C5 counterexample: a service with the pre-existing explicit
`container_name` value `""` is not left unchanged: the patcher overwrites the
empty name (JavaScript truthiness treats `""` like an absent field), so the
claim fails at this descriptor. -/
theorem patch_overwrites_empty_container_name :
    patchCompose "app" ⟨[("web", ⟨some "", some "img", []⟩)]⟩
      = ⟨[("web", ⟨some "app_web_1", some "img", []⟩)]⟩
    ∧ some ("app_web_1" : String) ≠ some "" := by
  exact ⟨by decide, by decide⟩

/-- C5 amended: patching maps every service in place (same names, same order,
nothing else changed); a service with a pre-existing non-empty
`container_name` is left completely unchanged; a service whose
`container_name` is absent or empty gets `<appId>_<serviceName>_1` with all
its other fields untouched. -/
theorem patchCompose_contract (appId : String) (c : Compose) :
    (∀ i : Nat, ((patchCompose appId c).services)[i]? =
        (c.services[i]?).map (fun p => (p.1, patchService appId p.1 p.2)))
    ∧ (∀ serviceName s cn, s.container_name = some cn → cn ≠ "" →
        patchService appId serviceName s = s)
    ∧ (∀ serviceName s, (s.container_name = none ∨ s.container_name = some "") →
        patchService appId serviceName s =
          { s with container_name := some (appId ++ "_" ++ serviceName ++ "_1") }) := by
  refine ⟨?_, ?_, ?_⟩
  · intro i
    simp [patchCompose, List.getElem?_map]
  · intro serviceName s cn hc hne
    simp [patchService, falsyStr, hc, hne]
  · rintro serviceName s (hc | hc) <;> simp [patchService, falsyStr, hc]

/-- Witness for the amended C5 at a concrete descriptor: the explicitly named
`db` service keeps its name, the unnamed `web` service of app `app` becomes
`app_web_1`. -/
theorem patchCompose_contract_witness :
    patchService "app" "db" ⟨some "dbname", some "img-db", []⟩ =
        ⟨some "dbname", some "img-db", []⟩
    ∧ patchService "app" "web" ⟨none, some "img-web", []⟩ =
        ⟨some "app_web_1", some "img-web", []⟩ := by
  constructor
  · exact (patchCompose_contract "app" composeW).2.1 "db" _ "dbname" rfl (by decide)
  · have h := (patchCompose_contract "app" composeW).2.2 "web"
      (⟨none, some "img-web", []⟩ : Service) (Or.inl rfl)
    rw [h]
    decide

/-! ### Usage aggregation: helper lemmas -/

/-- NaN absorbs on the right of JavaScript addition. -/
lemma JsNum.add_nan (a : JsNum) : a.add .nan = .nan := by
  cases a <;> rfl

/-- NaN absorbs on the left of JavaScript addition. -/
lemma JsNum.nan_add (b : JsNum) : JsNum.add .nan b = .nan := by
  cases b <;> rfl

/-- Once the accumulator of the percentage sum is NaN it stays NaN. -/
lemma foldl_add_acc_nan (f : UsageRecord → JsNum) (rs : List UsageRecord) :
    rs.foldl (fun t c => JsNum.add t (f c)) JsNum.nan = JsNum.nan := by
  induction rs with
  | nil => rfl
  | cons r rs ih => rw [List.foldl_cons, JsNum.nan_add]; exact ih

/-- One sample whose percentage parses to NaN poisons the whole sum. -/
lemma foldl_add_mem_nan (f : UsageRecord → JsNum) (rs : List UsageRecord) (a : JsNum)
    (h : ∃ r ∈ rs, f r = .nan) :
    rs.foldl (fun t c => JsNum.add t (f c)) a = JsNum.nan := by
  induction rs generalizing a with
  | nil => simp at h
  | cons r rs ih =>
    rcases h with ⟨x, hx, hfx⟩
    rcases List.mem_cons.mp hx with rfl | hmem
    · rw [List.foldl_cons, hfx, JsNum.add_nan]
      exact foldl_add_acc_nan f rs
    · exact ih _ ⟨x, hmem, hfx⟩

/-- When every sample parses to a finite value, the fold computes the exact
rational sum. -/
lemma foldl_add_num (f : UsageRecord → JsNum) (rs : List UsageRecord) (qs : List ℚ) (a : ℚ)
    (h : rs.map f = qs.map JsNum.num) :
    rs.foldl (fun t c => JsNum.add t (f c)) (JsNum.num a) = JsNum.num (a + qs.sum) := by
  induction rs generalizing qs a with
  | nil =>
    cases qs with
    | nil => simp
    | cons q qs => simp at h
  | cons r rs ih =>
    cases qs with
    | nil => simp at h
    | cons q qs =>
      simp only [List.map_cons, List.cons.injEq] at h
      rw [List.foldl_cons, h.1]
      show List.foldl _ (JsNum.num (a + q)) rs = _
      rw [ih qs (a + q) h.2, List.sum_cons]
      rw [add_assoc]

/-- C7 counterexample: with usage records whose first percentage strings are
the unparseable `"--"` (and a second record reporting 5.0), the aggregate is
NaN, not the zero-contribution total 5: the malformed sample corrupts the
aggregate instead of contributing zero. -/
theorem parse_failure_counterexample :
    App.getCpuUsage envBadStats sysW = .ok .nan
    ∧ App.getCpuUsage envBadStats sysW ≠ .ok (.num 5)
    ∧ jsParseFloat "--" = .nan := by
  refine ⟨?_, ?_, ?_⟩ <;> with_unfolding_all decide

/-- C7 amended: a usage sample whose memory or CPU percentage string fails to
parse contributes NaN, and NaN poisons the whole aggregate: the query still
reports success (no error is raised), but the aggregate value is NaN rather
than a sum that skips the malformed sample. -/
theorem parse_failure_poisons_aggregate (env : Env) (s : Sys) (c : Compose)
    (rs : List UsageRecord) (hfile : s.file = .ok c) (hstats : env.stats = .ok rs) :
    ((∃ r ∈ rs, jsParseFloat r.MemPerc = .nan) → App.getMemoryUsage env s = .ok .nan)
    ∧ ((∃ r ∈ rs, jsParseFloat r.CPUPerc = .nan) → App.getCpuUsage env s = .ok .nan) := by
  constructor
  · intro h
    simp only [App.getMemoryUsage, App.getResourceUsage, hfile, hstats]
    rw [foldl_add_mem_nan _ _ _ h]
    rfl
  · intro h
    simp only [App.getCpuUsage, App.getResourceUsage, hfile, hstats]
    rw [foldl_add_mem_nan _ _ _ h]

/-- Witness for the amended C7 at the concrete malformed stats. -/
theorem parse_failure_poisons_aggregate_witness :
    App.getMemoryUsage envBadStats sysW = .ok .nan := by
  exact (parse_failure_poisons_aggregate envBadStats sysW composeW
      [⟨"--", "--"⟩, ⟨"5.0%", "5.0%"⟩] rfl rfl).1
    ⟨⟨"--", "--"⟩, by decide, by with_unfolding_all decide⟩

/-- C9: when every sample's memory percentage parses to a finite value,
`getMemoryUsage` returns the host's total physical memory multiplied by the
summed percentages divided by 100. -/
theorem memoryUsageBytes_formula (env : Env) (s : Sys) (c : Compose)
    (rs : List UsageRecord) (qs : List ℚ)
    (hfile : s.file = .ok c) (hstats : env.stats = .ok rs)
    (hparse : rs.map (fun r => jsParseFloat r.MemPerc) = qs.map JsNum.num) :
    App.getMemoryUsage env s = .ok (.num (env.totalMemory * (qs.sum / 100))) := by
  have hsum := foldl_add_num (fun r => jsParseFloat r.MemPerc) rs qs 0 hparse
  simp only [App.getMemoryUsage, App.getResourceUsage, hfile, hstats]
  rw [hsum, zero_add]
  norm_num [JsNum.mul, JsNum.div]

/-- Witness for C9, the worked example of the spec: memory percentages 10.0
and 5.5 on a host with 16000000000 bytes give 16000000000 times 0.155. -/
theorem memoryUsageBytes_formula_witness :
    App.getMemoryUsage envMem sysW = .ok (.num (16000000000 * (155/1000))) := by
  have h := memoryUsageBytes_formula envMem sysW composeW
    [⟨"10.00%", "3.0%"⟩, ⟨"5.50%", "4.0%"⟩] [10, 11/2] rfl rfl
    (by with_unfolding_all decide)
  rw [h]
  norm_num [envMem, envOk]

/-! ### Constructor validation -/

/-- C8 counterexample: the empty app id is drawn entirely (vacuously) from the
restricted character set, yet construction rejects it, because the regex
`[a-zA-Z0-9-_]+` demands at least one character; so the acceptance half of the
claim fails at the empty string. -/
theorem construct_rejects_empty_id :
    ("".data.all isAppIdChar = true)
    ∧ App.construct "/data" "" = .error "Invalid app ID: " := by
  exact ⟨by decide, by decide⟩

/-- C8 amended: construction with an app id containing any character outside
letters, digits, hyphen and underscore fails up front with no effect on any
state (the embedded constructor is a pure function); construction with a
non-empty id drawn entirely from that set succeeds and only populates the
controller fields; the empty id is likewise rejected. -/
theorem construct_validates_id (base appId : String) :
    ((∃ ch ∈ appId.data, isAppIdChar ch = false) →
      App.construct base appId = .error ("Invalid app ID: " ++ appId))
    ∧ (appId.data ≠ [] → (∀ ch ∈ appId.data, isAppIdChar ch = true) →
      App.construct base appId =
        .ok { id := appId
              dataDirectory := base ++ "/app-data/" ++ appId
              state := .unknown
              stateProgress := 0 }) := by
  constructor
  · rintro ⟨ch, hmem, hch⟩
    have hall : appId.data.all isAppIdChar = false := by
      rcases h : appId.data.all isAppIdChar with _ | _
      · rfl
      · rw [List.all_eq_true] at h
        rw [h ch hmem] at hch
        cases hch
    rw [App.construct, testAppId, hall]
    simp
  · intro hne hall
    have h1 : appId.data.all isAppIdChar = true := List.all_eq_true.mpr hall
    have h2 : appId.data.isEmpty = false := by
      cases h : appId.data with
      | nil => exact absurd h hne
      | cons a l => rfl
    rw [App.construct, testAppId, h1, h2]
    simp

/-- Witness for the amended C8: `my-app_2` is accepted, `my app` (a space) is
rejected. -/
theorem construct_validates_id_witness :
    App.construct "/data" "my-app_2" =
      .ok { id := "my-app_2"
            dataDirectory := "/data/app-data/my-app_2"
            state := .unknown
            stateProgress := 0 }
    ∧ App.construct "/data" "my app" = .error "Invalid app ID: my app" := by
  constructor
  · exact (construct_validates_id "/data" "my-app_2").2 (by decide) (by decide)
  · exact (construct_validates_id "/data" "my app").1 ⟨' ', by decide, by decide⟩

/-! ### Lifecycle: restart (C1) -/

/-- C1: `restart` sets state `restarting` and invokes the `stop` action
strictly before the `start` action: the trace always begins with `stop`;
`start` appears in the trace only when `stop` succeeded; if `stop` fails the
whole run is exactly a failed `stop` (the error propagates, `start` is never
invoked, state stays `restarting`); if both actions succeed the state is
`ready` and the run reports success. -/
theorem restart_stop_before_start (env : Env) (s : Sys) :
    (∀ e, env.script "stop" = .error e →
      App.restart env s =
        (.error e, { s with app := { s.app with state := .restarting } },
          [.script "stop" s.app.id]))
    ∧ (env.script "stop" = .ok () → env.script "start" = .ok () →
      App.restart env s =
        (.ok true, { s with app := { s.app with state := .ready } },
          [.script "stop" s.app.id, .script "start" s.app.id]))
    ∧ ((App.restart env s).2.2).head? = some (.script "stop" s.app.id)
    ∧ (Event.script "start" s.app.id ∈ (App.restart env s).2.2 →
        env.script "stop" = .ok ()) := by
  refine ⟨?_, ?_, ?_, ?_⟩
  · intro e he
    simp [App.restart, he]
  · intro h1 h2
    simp [App.restart, h1, h2]
  · rcases h1 : env.script "stop" with e | u
    · simp [App.restart, h1]
    · cases u
      rcases h2 : env.script "start" with e | u
      · simp [App.restart, h1, h2]
      · cases u; simp [App.restart, h1, h2]
  · intro hmem
    rcases h1 : env.script "stop" with e | u
    · rw [App.restart] at hmem
      simp only [h1] at hmem
      simp at hmem
    · cases u; rfl

/-- Witness for C1 in an environment whose `stop` action fails: the error
propagates and the trace holds no `start` invocation. -/
theorem restart_stop_before_start_witness :
    App.restart envStopFails sysW =
      (.error "stop failed",
        { sysW with app := { sysW.app with state := .restarting } },
        [.script "stop" "myapp"]) := by
  exact (restart_stop_before_start envStopFails sysW).1 "stop failed" rfl

/-! ### Lifecycle: install (C2) -/

/-- C2: when the compose patch succeeded but the `install` script action
fails, `install` propagates exactly that error, performs nothing after the
failing action, and leaves the state at `installing` (neither `unknown` nor
`ready`). -/
theorem install_failure_leaves_installing (env : Env) (s : Sys) (c : Compose) (e : Err)
    (hfile : s.file = .ok c) (hscript : env.script "install" = .error e) :
    App.install env s =
      (.error e,
        { s with
            app := { s.app with state := .installing }
            file := .ok (patchCompose s.app.id c) },
        [.readComposeFile, .writeComposeFile (patchCompose s.app.id c),
          .script "install" s.app.id])
    ∧ (App.install env s).2.1.app.state = .installing := by
  have h : App.install env s =
      (.error e,
        { s with
            app := { s.app with state := .installing }
            file := .ok (patchCompose s.app.id c) },
        [.readComposeFile, .writeComposeFile (patchCompose s.app.id c),
          .script "install" s.app.id]) := by
    simp [App.install, App.patchComposeServices, hfile, hscript]
  exact ⟨h, by rw [h]⟩

/-- Witness for C2: in the environment whose `install` action fails, the run
on the concrete system ends in that error with state `installing`. -/
theorem install_failure_leaves_installing_witness :
    (App.install envInstallFails sysW).1 = .error "install failed"
    ∧ (App.install envInstallFails sysW).2.1.app.state = .installing := by
  have h := install_failure_leaves_installing envInstallFails sysW composeW
    "install failed" rfl rfl
  exact ⟨by rw [h.1], h.2⟩

/-! ### Lifecycle: update (C3) -/

/-- C3: whatever outcome `docker rmi` would produce (the env's `rmiResult` is
unconstrained), when the compose file reads and both update script actions
succeed, `update` runs read, `pre-patch-update`, patch (read and write),
`post-patch-update` and then attempts removal of exactly the image set
captured from the descriptor as it was before the patch steps; the removal
failure is never propagated: the run still ends with state `ready` and
reports success. -/
theorem update_old_images (env : Env) (s : Sys) (c : Compose)
    (hfile : s.file = .ok c)
    (hpre : env.script "pre-patch-update" = .ok ())
    (hpost : env.script "post-patch-update" = .ok ()) :
    App.update env s =
      (.ok true,
        { s with
            app := { s.app with state := .ready }
            file := .ok (patchCompose s.app.id c) },
        [.readComposeFile, .script "pre-patch-update" s.app.id,
          .readComposeFile, .writeComposeFile (patchCompose s.app.id c),
          .script "post-patch-update" s.app.id,
          .dockerRmi (oldImagesOf c)]) := by
  rcases hrmi : env.rmiResult with e | u <;>
    simp [App.update, App.patchComposeServices, hfile, hpre, hpost, hrmi]

/-- Witness for C3 in the environment where `docker rmi` fails: the update
still succeeds, removal of the pre-patch image set was attempted last. -/
theorem update_old_images_witness :
    App.update envRmiFails sysW =
      (.ok true,
        { sysW with
            app := { sysW.app with state := .ready }
            file := .ok (patchCompose "myapp" composeW) },
        [.readComposeFile, .script "pre-patch-update" "myapp",
          .readComposeFile, .writeComposeFile (patchCompose "myapp" composeW),
          .script "post-patch-update" "myapp",
          .dockerRmi (oldImagesOf composeW)]) := by
  exact update_old_images envRmiFails sysW composeW rfl rfl rfl

/-! ### Lifecycle: uninstall (C6, C10) -/

/-- C6: a successful `uninstall` leaves the persisted list equal to the
previous list with every occurrence of this app's id removed: the id is gone,
every other id keeps its exact multiplicity, and the result is a sublist of
the previous list (original order preserved). The read-modify-write runs
bracketed by the store's exclusive write lock, and the run reports success
only after that bracketed update is the last thing in the trace. -/
theorem uninstall_removes_id (env : Env) (s : Sys)
    (hstop : env.script "stop" = .ok ())
    (hrm : env.removeDirResult = .ok ()) :
    (App.uninstall env s).1 = .ok true
    ∧ (App.uninstall env s).2.1.storedApps
        = s.storedApps.filter (fun x => x != s.app.id)
    ∧ s.app.id ∉ (App.uninstall env s).2.1.storedApps
    ∧ (∀ x, x ≠ s.app.id →
        ((App.uninstall env s).2.1.storedApps).count x = s.storedApps.count x)
    ∧ ((App.uninstall env s).2.1.storedApps).Sublist s.storedApps
    ∧ (App.uninstall env s).2.2 =
        [.script "stop" s.app.id, .removeDirectory s.app.dataDirectory,
          .lockAcquire, .storeGet s.storedApps,
          .storeSet (s.storedApps.filter (fun x => x != s.app.id)), .lockRelease] := by
  have hlist : (App.uninstall env s).2.1.storedApps
      = s.storedApps.filter (fun x => x != s.app.id) := by
    simp [App.uninstall, hstop, hrm]
  refine ⟨?_, hlist, ?_, ?_, ?_, ?_⟩
  · simp [App.uninstall, hstop, hrm]
  · rw [hlist]
    simp
  · intro x hx
    rw [hlist]
    exact List.count_filter (by simpa using hx)
  · rw [hlist]
    exact List.filter_sublist _
  · simp [App.uninstall, hstop, hrm]

/-- Witness for C6 at the concrete store `["a", "myapp", "b"]`: uninstalling
`myapp` succeeds and leaves `["a", "b"]`, with the lock-bracketed
read-modify-write as the tail of the trace. -/
theorem uninstall_removes_id_witness :
    (App.uninstall envOk sysW).1 = .ok true
    ∧ (App.uninstall envOk sysW).2.1.storedApps = ["a", "b"]
    ∧ "myapp" ∉ (App.uninstall envOk sysW).2.1.storedApps := by
  have h := uninstall_removes_id envOk sysW rfl rfl
  refine ⟨h.1, ?_, h.2.2.1⟩
  rw [h.2.1]
  decide

/-- C10: `uninstall` sets no terminal state: its final state is
`uninstalling` whatever the outcome (so in particular at a successful
return), whereas each of the other five lifecycle operations that reports
success ends in its terminal state: `install`, `update`, `start` and
`restart` in `ready`, `stop` in `stopped`. -/
theorem uninstall_no_terminal_state (env : Env) (s : Sys) :
    (App.uninstall env s).2.1.app.state = .uninstalling
    ∧ ((App.install env s).1 = .ok true → (App.install env s).2.1.app.state = .ready)
    ∧ ((App.update env s).1 = .ok true → (App.update env s).2.1.app.state = .ready)
    ∧ ((App.start env s).1 = .ok true → (App.start env s).2.1.app.state = .ready)
    ∧ ((App.stop env s).1 = .ok true → (App.stop env s).2.1.app.state = .stopped)
    ∧ ((App.restart env s).1 = .ok true → (App.restart env s).2.1.app.state = .ready) := by
  refine ⟨?_, ?_, ?_, ?_, ?_, ?_⟩
  · rcases h1 : env.script "stop" with e | u
    · simp [App.uninstall, h1]
    · cases u
      rcases h2 : env.removeDirResult with e | u
      · simp [App.uninstall, h1, h2]
      · cases u; simp [App.uninstall, h1, h2]
  · intro h
    rcases hf : s.file with e | c
    · simp [App.install, App.patchComposeServices, hf] at h
    · rcases h1 : env.script "install" with e | u
      · simp [App.install, App.patchComposeServices, hf, h1] at h
      · cases u; simp [App.install, App.patchComposeServices, hf, h1]
  · intro h
    rcases hf : s.file with e | c
    · simp [App.update, hf] at h
    · rcases h1 : env.script "pre-patch-update" with e | u
      · simp [App.update, hf, h1] at h
      · cases u
        rcases h2 : env.script "post-patch-update" with e | u
        · simp [App.update, App.patchComposeServices, hf, h1, h2] at h
        · cases u
          rcases h3 : env.rmiResult with e | u
          · simp [App.update, App.patchComposeServices, hf, h1, h2, h3]
          · cases u; simp [App.update, App.patchComposeServices, hf, h1, h2, h3]
  · intro h
    rcases h1 : env.script "start" with e | u
    · simp [App.start, h1] at h
    · cases u; simp [App.start, h1]
  · intro h
    rcases h1 : env.script "stop" with e | u
    · simp [App.stop, h1] at h
    · cases u; simp [App.stop, h1]
  · intro h
    rcases h1 : env.script "stop" with e | u
    · simp [App.restart, h1] at h
    · cases u
      rcases h2 : env.script "start" with e | u
      · simp [App.restart, h1, h2] at h
      · cases u; simp [App.restart, h1, h2]

/-- Witness for C10 in the all-success environment: uninstall returns success
yet its state stays `uninstalling`, while a successful stop ends `stopped`
and a successful start ends `ready`. -/
theorem uninstall_no_terminal_state_witness :
    (App.uninstall envOk sysW).1 = .ok true
    ∧ (App.uninstall envOk sysW).2.1.app.state = .uninstalling
    ∧ (App.stop envOk sysW).2.1.app.state = .stopped
    ∧ (App.start envOk sysW).2.1.app.state = .ready := by
  have h := uninstall_no_terminal_state envOk sysW
  exact ⟨by decide, h.1, h.2.2.2.2.1 (by decide), h.2.2.2.1 (by decide)⟩

end Umbreld
